import Mathlib

/-!
Shallow embedding of the polling/caching synchronization engine of the
walkmlb repository (src/app/updater.py, src/app/mlb_api.py, cache tables of
src/app/db.py).  JSON documents are modelled by an inductive `Json` type;
Python's dynamic attribute errors are modelled with `Except PyErr`; the three
cache tables (boxscore_cache / linescore_cache / status_cache) are modelled as
association lists keyed by game_pk.  Network calls are modelled as oracle
values of type `Except PyErr Json` supplied through an `Env` record.
-/

/-- A JSON value as produced by Python's json.loads.  JSON numbers are
modelled as integers (no claim settled here depends on float values). -/
inductive Json where
  | null
  | bool (b : Bool)
  | num (n : Int)
  | str (s : String)
  | arr (xs : List Json)
  | obj (kvs : List (String × Json))

/-- Python exception kinds that the modelled code can raise. -/
inductive PyErr where
  | attrError (msg : String)
  | typeError (msg : String)
  | httpError (msg : String)
  | parseError (msg : String)
deriving Repr, DecidableEq

/-- First-match association-list lookup, the model of Python dict indexing
(json.loads produces dicts with unique keys). -/
def lookupKV : List (String × Json) → String → Option Json
  | [], _ => none
  | (k, v) :: t, key => if k == key then some v else lookupKV t key

/-- Python truthiness of a JSON value (bool(x)). -/
def Json.truthy : Json → Bool
  | .null => false
  | .bool b => b
  | .num n => n != 0
  | .str s => !(s == "")
  | .arr xs => !xs.isEmpty
  | .obj kvs => !kvs.isEmpty

/-- Python d.get(key, default): returns the stored value (even null) when the
key is present, the default when absent, and raises AttributeError when the
receiver is not a dict. -/
def pyGetD : Json → String → Json → Except PyErr Json
  | .obj kvs, key, dflt => .ok ((lookupKV kvs key).getD dflt)
  | _, _, _ => .error (.attrError "get")

/-- Python d.get(key) with no default (absent key yields None). -/
def pyGet (j : Json) (key : String) : Except PyErr Json :=
  pyGetD j key .null

/-- ASCII lowercasing of a string (Python str.lower on the ASCII state
strings compared here), implemented over the character list so that closed
instances reduce definitionally. -/
def lowerStr (s : String) : String := String.mk (s.toList.map Char.toLower)

/-- Python s.lower(): only strings have .lower. -/
def pyLower : Json → Except PyErr String
  | .str s => .ok (lowerStr s)
  | _ => .error (.attrError "lower")

/-- Does the second list start with the first one. -/
def listStartsWith : List Char → List Char → Bool
  | [], _ => true
  | _ :: _, [] => false
  | a :: s, b :: t => a == b && listStartsWith s t

/-- Contiguous-sublist test on character lists. -/
def hasSubList (sub : List Char) : List Char → Bool
  | [] => sub.isEmpty
  | c :: t => listStartsWith sub (c :: t) || hasSubList sub t

/-- Python `sub in s` on strings (contiguous substring). -/
def pyIn (sub s : String) : Bool := hasSubList sub.toList s.toList

/-- Model of `(s.get(key) or "").lower()`, the field extraction used for the
detailedState / abstractGameState strings throughout updater.py. -/
def getStateField (s : Json) (key : String) : Except PyErr String := do
  let v ← pyGet s key
  pyLower (if v.truthy then v else .str "")

/-- The Final condition shared by every classification site:
`"final" in detailed or abstract in ("final", "completed") or "game over" in detailed`. -/
def finalCond (detailed abstract : String) : Bool :=
  pyIn "final" detailed || abstract == "final" || abstract == "completed" ||
    pyIn "game over" detailed

/-- The Live condition of _refresh_and_get_status_state / _get_cached_status_state:
`abstract == "live" or "in progress" in detailed or "progress" in detailed or "live" in detailed`. -/
def liveCond (detailed abstract : String) : Bool :=
  abstract == "live" || pyIn "in progress" detailed || pyIn "progress" detailed ||
    pyIn "live" detailed

/-- The classification chain of updater.py (lines 229-235 and 255-261), applied
to the already-lowercased detailed/abstract state strings. -/
def classifyFields (detailed abstract : String) : String :=
  if finalCond detailed abstract then "final"
  else if liveCond detailed abstract then "live"
  else "other"

/-- Model of updater.py lines 228-230 / 254-256:
`s = j.get("gameData", {}).get("status", {})` followed by the two lowered field
extractions.  A parseable document whose gameData or status value is not a
dict makes the chained .get raise. -/
def extractFields (j : Json) : Except PyErr (String × String) := do
  let gd ← pyGetD j "gameData" (.obj [])
  let s ← pyGetD gd "status" (.obj [])
  let detailed ← getStateField s "detailedState"
  let abstract ← getStateField s "abstractGameState"
  pure (detailed, abstract)

/-- Model of the defensive variant used by mlb_api._is_final_cached and the
stored-final check of _update_active_games:
`s = (j.get("gameData", {}) or {}).get("status", {}) or {}`. -/
def extractFieldsDef (j : Json) : Except PyErr (String × String) := do
  let gd0 ← pyGetD j "gameData" (.obj [])
  let gd := if gd0.truthy then gd0 else .obj []
  let s0 ← pyGetD gd "status" (.obj [])
  let s := if s0.truthy then s0 else .obj []
  let detailed ← getStateField s "detailedState"
  let abstract ← getStateField s "abstractGameState"
  pure (detailed, abstract)

/-- Minimal JSON string escaping (quote and backslash), enough to keep the
canonical dump a deterministic function of the document. -/
def escapeChar (c : Char) : String :=
  if c = '"' then "\\\"" else if c = '\\' then "\\\\" else String.singleton c

/-- Escape a string for the canonical dump. -/
def escapeStr (s : String) : String := String.join (s.toList.map escapeChar)

/-- Insert a key/value pair into a key-sorted association list. -/
def insSorted (kv : String × Json) : List (String × Json) → List (String × Json)
  | [] => [kv]
  | h :: t => if kv.1 ≤ h.1 then kv :: h :: t else h :: insSorted kv t

/-- Sort an association list by key, the model of json.dumps(sort_keys=True). -/
def sortKVs : List (String × Json) → List (String × Json)
  | [] => []
  | h :: t => insSorted h (sortKVs t)

mutual
/-- Recursively sort every object's keys, the effect of sort_keys=True at
every nesting level of json.dumps. -/
def sortJson : Json → Json
  | .null => .null
  | .bool b => .bool b
  | .num n => .num n
  | .str s => .str s
  | .arr xs => .arr (sortJsonArr xs)
  | .obj kvs => .obj (sortKVs (sortJsonKV kvs))

/-- Sort the objects inside each array element. -/
def sortJsonArr : List Json → List Json
  | [] => []
  | x :: t => sortJson x :: sortJsonArr t

/-- Sort the objects inside each entry's value. -/
def sortJsonKV : List (String × Json) → List (String × Json)
  | [] => []
  | (k, v) :: t => (k, sortJson v) :: sortJsonKV t
end

mutual
/-- Whitespace-free serialization with separators=(",", ":"), applied after
key sorting by `dumps`. -/
def dumpsRaw : Json → String
  | .null => "null"
  | .bool true => "true"
  | .bool false => "false"
  | .num n => toString n
  | .str s => "\"" ++ escapeStr s ++ "\""
  | .arr xs => "[" ++ dumpsArr xs ++ "]"
  | .obj kvs => "\x7b" ++ dumpsObj kvs ++ "\x7d"

/-- Serialize array elements, comma separated. -/
def dumpsArr : List Json → String
  | [] => ""
  | [x] => dumpsRaw x
  | x :: y :: t => dumpsRaw x ++ "," ++ dumpsArr (y :: t)

/-- Serialize object entries, comma separated. -/
def dumpsObj : List (String × Json) → String
  | [] => ""
  | [(k, v)] => "\"" ++ escapeStr k ++ "\":" ++ dumpsRaw v
  | (k, v) :: e :: t => "\"" ++ escapeStr k ++ "\":" ++ dumpsRaw v ++ "," ++ dumpsObj (e :: t)
end

/-- Model of `json.dumps(payload, sort_keys=True, separators=(",", ":"))`:
the canonical serialization hashed by _calc_hash. -/
def dumps (j : Json) : String := dumpsRaw (sortJson j)

/-- Model of hashlib.sha256(...).hexdigest(): a deterministic injective digest
of the canonical dump.  The digest function itself is modelled as the
identity, which is deterministic and injective; no settled claim depends on
the concrete digest values, only on equality/inequality of hashes of equal or
distinct canonical dumps. -/
def sha256Hex (s : String) : String := s

/-- Model of _calc_hash (identical in updater.py and mlb_api.py). -/
def calcHash (payload : Json) : String := sha256Hex (dumps payload)

/-- Model of updater._shrink_status (updater.py lines 43-57). -/
def shrinkStatus (payload : Json) : Except PyErr Json := do
  let gd0 ← pyGetD payload "gameData" (.obj [])
  let gd := if gd0.truthy then gd0 else Json.obj []
  let status ← pyGetD gd "status" (.obj [])
  let datetimeInfo ← pyGetD gd "datetime" (.obj [])
  let teams ← pyGetD gd "teams" (.obj [])
  let home ← pyGetD teams "home" (.obj [])
  let homeName ← pyGet home "name"
  let away ← pyGetD teams "away" (.obj [])
  let awayName ← pyGet away "name"
  pure (Json.obj [("gameData", Json.obj [
      ("status", status),
      ("datetime", datetimeInfo),
      ("teams", Json.obj [
        ("home", Json.obj [("name", homeName)]),
        ("away", Json.obj [("name", awayName)])])])])

/-- Keys retained from the batting stats by _shrink_boxscore. -/
def keepBattingKeys : List String :=
  ["atBats", "runs", "hits", "rbi", "baseOnBalls", "strikeOuts", "leftOnBase", "homeRuns"]

/-- Top-level keys removed by _shrink_boxscore (TRIM_BOX_KEYS). -/
def trimBoxKeys : List String :=
  ["gameData", "decision", "flags", "alerts", "liveData", "seriesStatus", "seriesSummary"]

/-- Keys retained by mlb_api._shrink_linescore. -/
def keepLineKeys : List String :=
  ["innings", "teams", "currentInning", "currentInningOrdinal", "isTopInning",
   "balls", "strikes", "outs"]

/-- Remove the listed keys from an association list (dict.pop with default). -/
def objRemoveKeys (kvs : List (String × Json)) (ks : List String) : List (String × Json) :=
  kvs.filter (fun kv => !(ks.contains kv.1))

/-- Python `key in value`: key lookup on dicts, substring on strings,
membership on lists, TypeError otherwise. -/
def pyHasKey : Json → String → Except PyErr Bool
  | .obj kvs, k => .ok ((lookupKV kvs k).isSome)
  | .str s, k => .ok (pyIn k s)
  | .arr xs, k => .ok (xs.any (fun x => match x with | .str e => e == k | _ => false))
  | _, _ => .error (.typeError "in")

/-- Python d[key] = v on a dict: replace in place when present (order kept),
append otherwise; AttributeError on a non-dict receiver (model of item
assignment, which in CPython raises TypeError; the error kind is irrelevant
to every claim settled here). -/
def pySetKey : Json → String → Json → Except PyErr Json
  | .obj kvs, k, v =>
    .ok (.obj (if (lookupKV kvs k).isSome
      then kvs.map (fun kv => if kv.1 == k then (k, v) else kv)
      else kvs ++ [(k, v)]))
  | _, _, _ => .error (.attrError "setitem")

/-- Remove the listed keys from a dict (the pdata.pop loop). -/
def pyPopKeys : Json → List String → Except PyErr Json
  | .obj kvs, ks => .ok (.obj (objRemoveKeys kvs ks))
  | _, _ => .error (.attrError "pop")

/-- Per-player trimming loop body of mlb_api._shrink_boxscore (lines 75-89). -/
def shrinkPlayer (pdata : Json) : Except PyErr Json := do
  let stats0 ← pyGetD pdata "stats" (.obj [])
  let stats := if stats0.truthy then stats0 else Json.obj []
  let batting ← pyGetD stats "batting" (.obj [])
  let keepBatting ← keepBattingKeys.foldlM (fun acc k => do
      let present ← pyHasKey batting k
      if present then
        let v ← pyGet batting k
        pure (acc ++ [(k, v)])
      else pure acc) ([] : List (String × Json))
  let fielding0 ← pyGetD stats "fielding" (.obj [])
  let fielding := if fielding0.truthy then fielding0 else Json.obj []
  let errs ← pyGet fielding "errors"
  let statsTrim : Json :=
    match errs with
    | .null => Json.obj [("batting", Json.obj keepBatting)]
    | e => Json.obj [("batting", Json.obj keepBatting), ("fielding", Json.obj [("errors", e)])]
  let pdata1 ← pySetKey pdata "stats" statsTrim
  pyPopKeys pdata1 ["allPositions", "gameStatus", "status"]

/-- One side of the player-trimming loop: `players = t.get("players") or {}`
followed by the per-player mutation.  An empty-or-falsy players value leaves t
untouched (the loop body never runs and the fresh dict is discarded). -/
def shrinkSide (t : Json) : Except PyErr Json := do
  let players0 ← pyGet t "players"
  if players0.truthy then
    match players0 with
    | .obj pkvs => do
        let pkvs1 ← pkvs.mapM (fun kv => do
            let p1 ← shrinkPlayer kv.2
            pure (kv.1, p1))
        pySetKey t "players" (.obj pkvs1)
    | _ => .error (.attrError "items")
  else pure t

/-- Model of mlb_api._shrink_boxscore (lines 62-90).  The in-place mutation of
the shared players sub-structure is modelled functionally: the value returned
here is the dict the Python function returns; the claims settled in this file
do not depend on the aliasing side effect on the caller's document. -/
def shrinkBoxscore (payload : Json) : Except PyErr Json :=
  match payload with
  | .obj kvs => do
    let out0 : Json := .obj (objRemoveKeys kvs trimBoxKeys)
    let teams0 ← pyGetD out0 "teams" (.obj [])
    let teams := if teams0.truthy then teams0 else Json.obj []
    let stepSide := fun (tj : Json) (side : String) => do
      let t ← pyGet tj side
      if t.truthy then do
        let t1 ← shrinkSide t
        pySetKey tj side t1
      else pure tj
    let teams1 ← stepSide teams "home"
    let teams2 ← stepSide teams1 "away"
    if teams0.truthy then pySetKey out0 "teams" teams2 else pure out0
  | _ => .error (.typeError "dict")

/-- Model of mlb_api._shrink_linescore (lines 162-166):
`keep = {k: out.get(k) for k in keepLineKeys if k in out}`. -/
def shrinkLinescore (ls : Json) : Except PyErr Json :=
  match ls with
  | .obj kvs =>
    .ok (.obj (keepLineKeys.filterMap (fun k => (lookupKV kvs k).map (fun v => (k, v)))))
  | _ => .error (.typeError "dict")

/-- One cache row (boxscore_cache / linescore_cache / status_cache of db.py):
the stored json text is modelled by its parse result (none models stored text
that json.loads rejects), hash is the nullable content-hash column, updatedAt
the server-maintained timestamp. -/
structure CacheRow where
  payload : Option Json
  hash : Option String
  updatedAt : Nat

/-- A cache table keyed by game_pk. -/
abbrev Table := List (Int × CacheRow)

/-- Lookup by primary key (one_or_none on the unique game_pk column). -/
def tget : Table → Int → Option CacheRow
  | [], _ => none
  | (k, v) :: t, pk => if k == pk then some v else tget t pk

/-- Insert-or-replace by primary key. -/
def tset : Table → Int → CacheRow → Table
  | [], pk, r => [(pk, r)]
  | (k, v) :: t, pk, r => if k == pk then (pk, r) :: t else (k, v) :: tset t pk r

/-- Delete by primary key (filter delete; idempotent). -/
def tdel (t : Table) (pk : Int) : Table :=
  t.filter (fun kv => !(kv.1 == pk))

/-- The three cache tables owned by the engine. -/
structure Store where
  box : Table
  line : Table
  status : Table

/-- The store with no cached rows. -/
def emptyStore : Store := { box := [], line := [], status := [] }

/-- Model of updater._purge_final_caches (lines 59-69): delete all three cache
rows of each listed game_pk. -/
def purgeFinalCaches (st : Store) (pks : List Int) : Store :=
  pks.foldl (fun s pk =>
    { box := tdel s.box pk, line := tdel s.line pk, status := tdel s.status pk }) st

/-- The conditional shrink of _upsert_simple_cache line 143:
`shrunk = _shrink_status(payload) if table == "status_cache" else payload`. -/
def shrinkFor (table : String) (payload : Json) : Except PyErr Json :=
  if table == "status_cache" then shrinkStatus payload else Except.ok payload

/-- The model selection of _upsert_simple_cache line 139:
`model = LinescoreCache if table == "linescore_cache" else StatusCache`. -/
def tableOf (st : Store) (table : String) : Table :=
  if table == "linescore_cache" then st.line else st.status

/-- Write back the selected table. -/
def setTableOf (st : Store) (table : String) (t : Table) : Store :=
  if table == "linescore_cache" then { st with line := t } else { st with status := t }

/-- Model of updater._upsert_simple_cache (lines 137-159).  The returned Bool
reports whether a database write was performed (the commit path with changes);
the early `return` on an equal hash performs no write at all, in particular
the onupdate timestamp does not advance. -/
def upsertSimpleCache (st : Store) (table : String) (pk : Int) (payload : Json)
    (now : Nat) : Except PyErr (Store × Bool) :=
  match shrinkFor table payload with
  | .error e => .error e
  | .ok shrunk =>
    match tget (tableOf st table) pk with
    | some row =>
      if row.hash == some (calcHash shrunk) then .ok (st, false)
      else .ok (setTableOf st table (tset (tableOf st table) pk
        { payload := some shrunk, hash := some (calcHash shrunk), updatedAt := now }), true)
    | none =>
      .ok (setTableOf st table (tset (tableOf st table) pk
        { payload := some shrunk, hash := some (calcHash shrunk), updatedAt := now }), true)

/-- Model of mlb_api._set_cached_boxscore (lines 97-114). -/
def setCachedBoxscore (st : Store) (pk : Int) (payload : Json) (now : Nat) :
    Except PyErr (Store × Bool) :=
  match shrinkBoxscore payload with
  | .error e => .error e
  | .ok shrunk =>
    match tget st.box pk with
    | some row =>
      if row.hash == some (calcHash shrunk) then .ok (st, false)
      else .ok ({ st with box := (tset st.box pk
        { payload := some shrunk, hash := some (calcHash shrunk), updatedAt := now }) }, true)
    | none =>
      .ok ({ st with box := (tset st.box pk
        { payload := some shrunk, hash := some (calcHash shrunk), updatedAt := now }) }, true)

/-- Model of updater._get_cached_status_state (lines 241-263): read the cached
Status row and classify without network.  Only the json.loads call is guarded
by a try/except; the subsequent .get chain can raise. -/
def getCachedStatusState (st : Store) (pk : Int) : Except PyErr String :=
  match tget st.status pk with
  | none => .ok "other"
  | some row =>
    match row.payload with
    | none => .ok "other"
    | some j =>
      match extractFields j with
      | .error e => .error e
      | .ok (detailed, abstract) => .ok (classifyFields detailed abstract)

/-- Model of updater._refresh_and_get_status_state (lines 220-238): fetch the
live feed, cache it through _upsert_simple_cache, classify.  The entire body
is wrapped in try/except returning "other"; a failure after the cache commit
keeps the mutated store (the commit already happened). -/
def refreshAndGetStatusState (st : Store) (pk : Int) (net : Except PyErr Json)
    (now : Nat) : Store × String :=
  match net with
  | .error _ => (st, "other")
  | .ok j =>
    match upsertSimpleCache st "status_cache" pk j now with
    | .error _ => (st, "other")
    | .ok (st1, _) =>
      match extractFields j with
      | .error _ => (st1, "other")
      | .ok (detailed, abstract) => (st1, classifyFields detailed abstract)

/-- The classification component of _refresh_and_get_status_state as a
function of the network result alone (the store never influences it). -/
def statusStateOfNet (net : Except PyErr Json) : String :=
  match net with
  | .error _ => "other"
  | .ok j =>
    match shrinkStatus j with
    | .error _ => "other"
    | .ok _ =>
      match extractFields j with
      | .error _ => "other"
      | .ok (detailed, abstract) => classifyFields detailed abstract

/-- Per-row body of updater._has_any_live_games: some b when the row's live
condition evaluates to b without raising, none when json.loads or the .get
chain raises (caught, continue).  The live condition here omits the bare
"progress" substring used by the classifier. -/
def liveRowCheck (row : CacheRow) : Option Bool :=
  match row.payload with
  | none => none
  | some j =>
    match extractFields j with
    | .error _ => none
    | .ok (detailed, abstract) =>
      some (abstract == "live" || pyIn "in progress" detailed || pyIn "live" detailed)

/-- Model of updater._has_any_live_games (lines 266-286).  When a live row is
found the source deliberately returns False (the commented-out `return True`
with the note that live detection is disabled for now), so every branch
returns false. -/
def hasAnyLiveGames : Table → Bool
  | [] => false
  | (_, row) :: t =>
    match liveRowCheck row with
    | some true => false
    | _ => hasAnyLiveGames t

/-- Model of mlb_api._is_final_cached (lines 10-25): the whole body is wrapped
in try/except returning False, and the .get chain is the defensive variant. -/
def isFinalCached (st : Store) (pk : Int) : Bool :=
  match tget st.status pk with
  | none => false
  | some row =>
    match row.payload with
    | none => false
    | some j =>
      match extractFieldsDef j with
      | .error _ => false
      | .ok (detailed, abstract) => finalCond detailed abstract

/-- Model of mlb_api.refresh_boxscore (lines 132-139): always fetch from the
network and overwrite the cache; transport, parse and shrink errors all
propagate to the caller. -/
def refreshBoxscore (st : Store) (pk : Int) (net : Except PyErr Json) (now : Nat) :
    Except PyErr (Store × Json) :=
  match net with
  | .error e => .error e
  | .ok data =>
    match setCachedBoxscore st pk data now with
    | .error e => .error e
    | .ok (st1, _) => .ok (st1, data)

/-- Model of mlb_api.fetch_boxscore (lines 116-130).  The third component is
the list of network endpoints hit.  A truthy cached document is returned with
no network; a falsy cached document ({} stored) falls through exactly as the
Python `if cached:` does. -/
def fetchBoxscore (st : Store) (pk : Int) (net : Except PyErr Json) (now : Nat) :
    Except PyErr (Store × Json × List String) :=
  let miss : Except PyErr (Store × Json × List String) :=
    if isFinalCached st pk then .ok (st, Json.obj [], [])
    else
      match net with
      | .error e => .error e
      | .ok data =>
        match setCachedBoxscore st pk data now with
        | .error e => .error e
        | .ok (st1, _) => .ok (st1, data, ["boxscore"])
  match tget st.box pk with
  | some row =>
    match row.payload with
    | none => .error (.parseError "loads")
    | some cached => if cached.truthy then .ok (st, cached, []) else miss
  | none => miss

/-- Model of mlb_api.fetch_game_status (lines 141-160): on a cache hit parse
the stored row (an unparseable row raises), on a miss fetch the live feed and
store it WITHOUT computing the content hash (the inserted row's hash column
stays NULL); then extract the detailed/abstract pair with "Unknown" defaults. -/
def fetchGameStatus (st : Store) (pk : Int) (net : Except PyErr Json) (now : Nat) :
    Except PyErr (Store × Json × Json) :=
  let afterRow : Except PyErr (Json × Store) :=
    match tget st.status pk with
    | some row =>
      match row.payload with
      | none => .error (.parseError "loads")
      | some j => .ok (j, st)
    | none =>
      match net with
      | .error e => .error e
      | .ok j =>
        .ok (j, { st with
          status := tset st.status pk { payload := some j, hash := none, updatedAt := now } })
  match afterRow with
  | .error e => .error e
  | .ok (j, st1) =>
    match (do
      let gd ← pyGetD j "gameData" (.obj [])
      let s ← pyGetD gd "status" (.obj [])
      let detailed ← pyGetD s "detailedState" (.str "Unknown")
      let abstract ← pyGetD s "abstractGameState" (.str "Unknown")
      pure (detailed, abstract) : Except PyErr (Json × Json)) with
    | .error e => .error e
    | .ok (detailed, abstract) => .ok (st1, detailed, abstract)

/-- Model of mlb_api.parse_boxscore_totals, team_vals part (lines 231-239). -/
def teamVals (team : Json) : Except PyErr Json := do
  let ts ← pyGetD team "teamStats" (.obj [])
  let b ← pyGetD ts "batting" (.obj [])
  let f ← pyGetD ts "fielding" (.obj [])
  let runs ← pyGetD b "runs" (.num 0)
  let hits ← pyGetD b "hits" (.num 0)
  let errs ← pyGetD f "errors" (.num 0)
  let homers ← pyGetD b "homeRuns" (.num 0)
  pure (Json.obj [("runs", runs), ("hits", hits), ("errors", errs), ("homers", homers)])

/-- Model of mlb_api.parse_boxscore_totals (lines 226-244). -/
def parseBoxscoreTotals (box : Json) : Except PyErr Json := do
  let teams ← pyGetD box "teams" (.obj [])
  let home ← pyGetD teams "home" (.obj [])
  let away ← pyGetD teams "away" (.obj [])
  let hv ← teamVals home
  let av ← teamVals away
  pure (Json.obj [("home", hv), ("away", av)])

/-- The team display-name chain of updater.update_for_date lines 102-103:
`box.get("teams", {}).get(side, {}).get("team", {}).get("name", default)`. -/
def teamDisplayName (box : Json) (side : String) (dflt : String) : Except PyErr Json := do
  let teams ← pyGetD box "teams" (.obj [])
  let s ← pyGetD teams side (.obj [])
  let t ← pyGetD s "team" (.obj [])
  pyGetD t "name" (.str dflt)

/-- One batter row of mlb_api.iter_batters (lines 253-273); none models the
`if not stats: continue` skip. -/
def batterRow (teamNameJ : Json) (p : Json) : Except PyErr (Option Json) := do
  let person ← pyGetD p "person" (.obj [])
  let pstats ← pyGetD p "stats" (.obj [])
  let stats ← pyGetD pstats "batting" (.obj [])
  let pos0 ← pyGetD p "position" (.obj [])
  let position ← pyGetD pos0 "abbreviation" (.str "")
  if !stats.truthy then pure none else do
    let name ← pyGetD person "fullName" (.str "Unknown")
    let ab ← pyGetD stats "atBats" (.num 0)
    let r ← pyGetD stats "runs" (.num 0)
    let h ← pyGetD stats "hits" (.num 0)
    let hr ← pyGetD stats "homeRuns" (.num 0)
    let fielding0 ← pyGetD pstats "fielding" (.obj [])
    let fielding := if fielding0.truthy then fielding0 else Json.obj []
    let errs ← pyGetD fielding "errors" (.num 0)
    let rbi ← pyGetD stats "rbi" (.num 0)
    let bb ← pyGetD stats "baseOnBalls" (.num 0)
    let so ← pyGetD stats "strikeOuts" (.num 0)
    let lob0 ← pyGetD stats "leftOnBase" (.num 0)
    let lob := if lob0.truthy then lob0 else Json.num 0
    pure (some (Json.obj [("team", teamNameJ), ("name", name), ("position", position),
      ("ab", ab), ("r", r), ("h", h), ("hr", hr), ("errors", errs),
      ("rbi", rbi), ("bb", bb), ("so", so), ("lob", lob)]))

/-- One side of iter_batters (lines 248-252). -/
def sideBatters (teams : Json) (side : String) : Except PyErr (List Json) := do
  let t ← pyGetD teams side (.obj [])
  let tm ← pyGetD t "team" (.obj [])
  let teamNameJ ← pyGetD tm "name" (.str side)
  let players ← pyGetD t "players" (.obj [])
  match players with
  | .obj pkvs => do
      let rows ← pkvs.mapM (fun kv => batterRow teamNameJ kv.2)
      pure (rows.filterMap id)
  | _ => .error (.attrError "values")

/-- Model of mlb_api.iter_batters (lines 247-273), consumed eagerly as the
update loop does. -/
def iterBatters (box : Json) : Except PyErr (List Json) := do
  let teams ← pyGetD box "teams" (.obj [])
  let hrows ← sideBatters teams "home"
  let arows ← sideBatters teams "away"
  pure (hrows ++ arows)

/-- Upstream feed client oracles: the (deterministic, per game_pk) results of
the live-feed, boxscore and linescore endpoints.  An .error value models a
transport or parse failure of that call. -/
structure Env where
  statusNet : Int → Except PyErr Json
  boxNet : Int → Except PyErr Json
  lineNet : Int → Except PyErr Json

/-- A ledger trace entry: the arguments of one upsert_game call together with
the iter_batters rows passed to upsert_batter (the ledger is the external
Event-ledger collaborator, modelled at its interface as an append trace; the
date computation is out of scope of every claim settled here). -/
structure LEntry where
  pk : Int
  home : Json
  away : Json
  totals : Json
  rows : List Json

/-- A schedule item carrying just the gamePk field, the shape consumed by the
update loop. -/
def mkGame (pk : Int) : Json := Json.obj [("gamePk", Json.num pk)]

/-- Model of `int(g.get("gamePk") or 0)` inside its try/except (update loop
lines 82-86): none models the caught-and-skipped invalid item. -/
def extractGamePk (g : Json) : Option Int :=
  match pyGet g "gamePk" with
  | .error _ => none
  | .ok v =>
    match (if v.truthy then v else Json.num 0) with
    | .num n => some n
    | .bool b => some (if b then 1 else 0)
    | .str s => s.toInt?
    | _ => none

/-- Accumulated result of update_for_date: the cache store, the ledger call
trace and the updated-games counter. -/
structure URes where
  store : Store
  ledger : List LEntry
  updated : Nat

/-- Per-schedule-item body of updater.update_for_date (lines 81-130).
The cached-status read (line 88) and the boxscore refresh (line 100) are not
guarded: their exceptions propagate and abort the whole sweep.  The linescore
fetch and the final purge check are guarded by try/except. -/
def updateGameStep (env : Env) (force : Bool) (now : Nat) (acc : URes) (g : Json) :
    Except PyErr URes :=
  match extractGamePk g with
  | none => .ok acc
  | some pk =>
    match getCachedStatusState acc.store pk with
    | .error e => .error e
    | .ok cachedState =>
      if !force && cachedState == "final" then .ok acc
      else
        let st1 := (refreshAndGetStatusState acc.store pk (env.statusNet pk) now).1
        let statusState := (refreshAndGetStatusState acc.store pk (env.statusNet pk) now).2
        if !force && statusState == "final" then .ok { acc with store := st1 }
        else
          match refreshBoxscore st1 pk (env.boxNet pk) now with
            | .error e => .error e
            | .ok (st2, box) =>
              match parseBoxscoreTotals box with
              | .error e => .error e
              | .ok totals =>
                match teamDisplayName box "home" "Home" with
                | .error e => .error e
                | .ok homeTeam =>
                  match teamDisplayName box "away" "Away" with
                  | .error e => .error e
                  | .ok awayTeam =>
                    match iterBatters box with
                    | .error e => .error e
                    | .ok rows =>
                      let ledger1 := acc.ledger ++
                        [{ pk := pk, home := homeTeam, away := awayTeam,
                           totals := totals, rows := rows }]
                      let updated1 := acc.updated + 1
                      let st3 :=
                        match env.lineNet pk with
                        | .error _ => st2
                        | .ok ls =>
                          match upsertSimpleCache st2 "linescore_cache" pk ls now with
                          | .error _ => st2
                          | .ok (s, _) => s
                      let st4 :=
                        match getCachedStatusState st3 pk with
                        | .error _ => st3
                        | .ok stateNow =>
                          if stateNow == "final" then purgeFinalCaches st3 [pk] else st3
                      .ok { store := st4, ledger := ledger1, updated := updated1 }

/-- Model of updater.update_for_date (lines 71-135).  The schedule list is the
fetch_schedule result; an exception escaping the per-game body propagates out
of the function (the partial cache/ledger effects already committed before the
raise are not observable through the Except result and no settled claim reads
them). -/
def updateForDate (env : Env) (schedule : List Json) (force : Bool) (st : Store)
    (now : Nat) : Except PyErr (Store × List LEntry × Nat) :=
  if schedule.isEmpty then .ok (st, [], 0)
  else
    match schedule.foldlM (updateGameStep env force now)
        { store := st, ledger := [], updated := 0 } with
    | .error e => .error e
    | .ok r => .ok (r.store, r.ledger, r.updated)

/-- The stored-final short-circuit condition of _update_active_games lines
308-314, evaluated inside try/except pass: an exception in the check falls
through to normal processing. -/
def storedFinal (j : Json) : Bool :=
  match extractFieldsDef j with
  | .error _ => false
  | .ok (detailed, abstract) => finalCond detailed abstract

/-- Accumulated result of _update_active_games: store, ledger trace, counter,
and the trace of network endpoints hit (endpoint name, game_pk). -/
structure ARes where
  store : Store
  ledger : List LEntry
  updated : Nat
  net : List (String × Int)

/-- Per-status-row body of updater._update_active_games (lines 302-383).
A row whose stored payload does not parse is skipped; a row whose stored
classification is already final is skipped with NO network call and NO purge;
otherwise the status is refreshed (purging on a fresh final), and the
boxscore/ledger/linescore block runs under its catch-all. -/
def activeStep (env : Env) (now : Nat) (acc : ARes) (rowPair : Int × CacheRow) : ARes :=
  let pk := rowPair.1
  match rowPair.2.payload with
  | none => acc
  | some j =>
    if storedFinal j then acc
    else
      let st1 := (refreshAndGetStatusState acc.store pk (env.statusNet pk) now).1
      let state := (refreshAndGetStatusState acc.store pk (env.statusNet pk) now).2
      let acc1 := { acc with store := st1, net := acc.net ++ [("status", pk)] }
      if state == "final" then { acc1 with store := purgeFinalCaches st1 [pk] }
      else
          let netB := acc1.net ++ [("boxscore", pk)]
          match refreshBoxscore st1 pk (env.boxNet pk) now with
          | .error _ => { acc1 with net := netB }
          | .ok (st2, box) =>
            match (do
              let totals ← parseBoxscoreTotals box
              let homeTeam ← teamDisplayName box "home" "Home"
              let awayTeam ← teamDisplayName box "away" "Away"
              let rows ← iterBatters box
              pure (totals, homeTeam, awayTeam, rows) :
                Except PyErr (Json × Json × Json × List Json)) with
            | .error _ => { acc1 with store := st2, net := netB }
            | .ok (totals, homeTeam, awayTeam, rows) =>
              let ledger1 := acc1.ledger ++
                [{ pk := pk, home := homeTeam, away := awayTeam,
                   totals := totals, rows := rows }]
              let st3 :=
                match env.lineNet pk with
                | .error _ => st2
                | .ok ls =>
                  match upsertSimpleCache st2 "linescore_cache" pk ls now with
                  | .error _ => st2
                  | .ok (s, _) => s
              { store := st3, ledger := ledger1, updated := acc1.updated + 1,
                net := netB ++ [("linescore", pk)] }

/-- Model of updater._update_active_games (lines 289-384): iterate over a
snapshot of the Status cache rows taken before the loop. -/
def updateActiveGames (env : Env) (st : Store) (now : Nat) : ARes :=
  let rows := st.status
  if rows.isEmpty then { store := st, ledger := [], updated := 0, net := [] }
  else rows.foldl (activeStep env now) { store := st, ledger := [], updated := 0, net := [] }

/-- The scheduler's global run-state fields that the claims observe. -/
structure SchedState where
  lastError : Option String
  isRunning : Bool
  lastUpdatedGames : Nat

/-- Oracles for one scheduler cycle: the outcomes of the active sweep, the
date sweep (used only when the active sweep updates nothing), the cache
cleanup, and the Status table scanned by the pre-sleep live check. -/
structure CycleEnv where
  activeRes : Except String Nat
  dateRes : Except String Nat
  cleanupRes : Except String Unit
  stStatus : Table

/-- The guarded main block of one run_scheduler cycle (lines 165-186):
LAST_ERROR is cleared, the sweeps run, and the except branch records the
error string; returns the new state and the _detail trace lines (message
formatting elided to constant tags). -/
def cycleStep1 (env : CycleEnv) (s : SchedState) : SchedState × List String :=
  let s0 : SchedState := { s with lastError := none, isRunning := true }
  match env.activeRes with
  | .error e => ({ s0 with lastError := some e, isRunning := false }, ["scheduler error"])
  | .ok n =>
    if n > 0 then
      ({ s0 with lastUpdatedGames := n, isRunning := false }, ["active update pass"])
    else
      match env.dateRes with
      | .error e => ({ s0 with lastError := some e, isRunning := false }, ["scheduler error"])
      | .ok m => ({ s0 with lastUpdatedGames := m, isRunning := false }, ["date sweep today"])

/-- Model of one full cycle of updater.run_scheduler (lines 164-215): the
guarded main block, the guarded cleanup (logged only, LAST_ERROR untouched),
the guarded live check, and the chosen sleep interval (third component). -/
def runCycle (env : CycleEnv) (s : SchedState) : SchedState × List String × Nat :=
  let p := cycleStep1 env s
  let logs2 :=
    match env.cleanupRes with
    | .error _ => p.2 ++ ["cache cleanup failed"]
    | .ok _ => p.2
  let hasLive := hasAnyLiveGames env.stStatus
  (p.1, logs2 ++ ["sleep interval"], if hasLive then 60 else 300)

/-- The content-hash invariant of one cache row: the hash column holds exactly
the hash of the canonical serialization of the stored payload. -/
def rowHashOk (r : CacheRow) : Bool :=
  match r.payload, r.hash with
  | some p, some h => h == calcHash p
  | _, _ => false

/-- The content-hash invariant over one table. -/
def tableHashOk (t : Table) : Bool := t.all (fun kv => rowHashOk kv.2)

/-- The content-hash invariant over the whole store. -/
def storeHashOk (st : Store) : Bool :=
  tableHashOk st.box && tableHashOk st.line && tableHashOk st.status

/-- Does a JSON object carry the given top-level key. -/
def jsonHasKey (j : Json) (k : String) : Bool :=
  match j with
  | .obj kvs => (lookupKV kvs k).isSome
  | _ => false

/-- A status document with the given raw detailed/abstract state strings. -/
def statusDoc (det ab : String) : Json :=
  Json.obj [("gameData", Json.obj [("status", Json.obj
    [("detailedState", Json.str det), ("abstractGameState", Json.str ab)])])]

/-- A store holding exactly one Status cache row for game 1 with the given
raw state strings. -/
def storeWithStatusDoc (det ab : String) : Store :=
  { box := [], line := [],
    status := [(1, { payload := some (statusDoc det ab), hash := none, updatedAt := 0 })] }

/-- A status document whose stored classification is Final. -/
def finalStatusDoc : Json := statusDoc "Final" "Final"

/-- A status document whose stored classification is Live. -/
def liveStatusDoc : Json := statusDoc "In Progress" "Live"

/-- A cache row holding the empty document with its correct content hash. -/
def emptyObjRow : CacheRow :=
  { payload := some (Json.obj []), hash := some (calcHash (Json.obj [])), updatedAt := 0 }

/-- Store with one linescore row for game 1 (result of the first upsert of the
empty document). -/
def lineStore1 : Store := { box := [], line := [(1, emptyObjRow)], status := [] }

/-- Store with one boxscore row for game 1 (result of the first boxscore write
of the empty document). -/
def boxStore1 : Store := { box := [(1, emptyObjRow)], line := [], status := [] }

/-- Upstream oracle for the C1 counterexample: the boxscore endpoint raises
for game 1 and succeeds elsewhere. -/
def c1Env : Env :=
  { statusNet := fun _ => .ok (Json.obj []),
    boxNet := fun pk => if pk == 1 then .error (.httpError "boxscore") else .ok (Json.obj []),
    lineNet := fun _ => .ok (Json.obj []) }

/-- Upstream oracle for the C1 witness: the live-feed call raises for game 1
and the linescore call raises for game 2; all boxscore calls succeed. -/
def c1wEnv : Env :=
  { statusNet := fun pk => if pk == 1 then .error (.httpError "feed") else .ok (Json.obj []),
    boxNet := fun _ => .ok (Json.obj []),
    lineNet := fun pk => if pk == 2 then .error (.httpError "linescore") else .ok (Json.obj []) }

/-- An upstream oracle all of whose endpoints raise; any network interaction
with it is observable as an error or a trace entry. -/
def failEnv : Env :=
  { statusNet := fun _ => .error (.httpError "net"),
    boxNet := fun _ => .error (.httpError "net"),
    lineNet := fun _ => .error (.httpError "net") }

/-- Cycle oracle for the C2 counterexample: both sweeps succeed, cache
eviction raises. -/
def c2Env : CycleEnv :=
  { activeRes := .ok 1, dateRes := .ok 0, cleanupRes := .error "boom", stStatus := [] }

/-- Cycle oracle for the C2 witness: the active sweep raises and eviction
raises. -/
def c2wEnv : CycleEnv :=
  { activeRes := .error "sweep failed", dateRes := .ok 0, cleanupRes := .error "boom",
    stStatus := [] }

/-- A resting scheduler state. -/
def idleSched : SchedState := { lastError := none, isRunning := false, lastUpdatedGames := 0 }

/-- Store whose Status row for game 1 is parseable JSON but not an object at
gameData (json.loads succeeds, the .get chain raises). -/
def c3BadStore : Store :=
  { box := [], line := [],
    status := [(1, { payload := some (Json.obj [("gameData", Json.null)]), hash := none,
                     updatedAt := 0 })] }

/-- Store whose Status row for game 1 classifies as live. -/
def c3LiveStore : Store :=
  { box := [], line := [],
    status := [(1, { payload := some liveStatusDoc, hash := none, updatedAt := 0 })] }

/-- Store for the C7 counterexample: game 1 has a stored-final Status row AND
a boxscore row that a purge would have to delete. -/
def c7Store : Store :=
  { box := [(1, emptyObjRow)], line := [],
    status := [(1, { payload := some finalStatusDoc, hash := none, updatedAt := 0 })] }

/-- Status table with one live row, for the C8 counterexample. -/
def c8Table : Table := [(1, { payload := some liveStatusDoc, hash := none, updatedAt := 0 })]

/-- Cycle oracle for the C8 counterexample: clean cycle, one live Status row. -/
def c8Env : CycleEnv :=
  { activeRes := .ok 0, dateRes := .ok 0, cleanupRes := .ok (), stStatus := c8Table }

/-- A raw linescore payload carrying a field outside the shrink whitelist. -/
def c9Raw : Json := Json.obj [("innings", Json.arr []), ("foo", Json.str "bar")]

/-- What _shrink_linescore keeps of c9Raw. -/
def c9Shrunk : Json := Json.obj [("innings", Json.arr [])]

/-- Upstream oracle for C9: the linescore endpoint returns c9Raw. -/
def c9Env : Env :=
  { statusNet := fun _ => .ok (Json.obj []),
    boxNet := fun _ => .ok (Json.obj []),
    lineNet := fun _ => .ok c9Raw }

/-- Store for the C10 witness: a final Status row for game 1 and no boxscore
row (the state fetch_boxscore's final short-circuit serves). -/
def c10Store : Store :=
  { box := [], line := [],
    status := [(1, { payload := some finalStatusDoc, hash := none, updatedAt := 0 })] }

/-- A boxscore document the upstream would return for the C10 counterexample. -/
def c10Doc : Json := Json.obj [("teams", Json.obj [])]

/-- The store after fetch_boxscore refetches c10Doc into the purged cache. -/
def c10Res : Store :=
  { box := [(1, { payload := some c10Doc, hash := some (calcHash c10Doc), updatedAt := 0 })],
    line := [], status := [] }

/-- The row written by both cache-write operations: shrunk payload, its
content hash, and the write timestamp. -/
def freshRow (shrunk : Json) (now : Nat) : CacheRow :=
  { payload := some shrunk, hash := some (calcHash shrunk), updatedAt := now }

theorem tget_tset_self (t : Table) (pk : Int) (r : CacheRow) :
    tget (tset t pk r) pk = some r := by
  induction t with
  | nil => simp [tset, tget]
  | cons p tl ih =>
    obtain ⟨k, v⟩ := p
    by_cases hk : k = pk
    · subst hk; simp [tset, tget]
    · simp [tset, tget, beq_iff_eq, hk, ih]

theorem tget_tset_ne (t : Table) (pk q : Int) (r : CacheRow) (h : ¬(q = pk)) :
    tget (tset t pk r) q = tget t q := by
  induction t with
  | nil => simp [tset, tget, beq_iff_eq, Ne.symm h]
  | cons p tl ih =>
    obtain ⟨k, v⟩ := p
    by_cases hk : k = pk
    · subst hk; simp [tset, tget, beq_iff_eq, Ne.symm h]
    · simp [tset, tget, beq_iff_eq, hk, ih]

theorem tget_tdel_ne (t : Table) (pk q : Int) (h : ¬(q = pk)) :
    tget (tdel t pk) q = tget t q := by
  induction t with
  | nil => rfl
  | cons p tl ih =>
    obtain ⟨k, v⟩ := p
    simp only [tdel] at ih ⊢
    by_cases hk : k = pk
    · subst hk
      simp only [List.filter_cons, beq_self_eq_true, Bool.not_true, Bool.false_eq_true,
        if_false]
      rw [ih]
      simp [tget, beq_iff_eq, Ne.symm h]
    · by_cases hq : k = q
      · subst hq
        simp [List.filter_cons, beq_iff_eq, hk, tget]
      · simp [List.filter_cons, beq_iff_eq, hk, tget, hq, ih]

theorem classifyFields_mem (d a : String) :
    classifyFields d a = "live" ∨ classifyFields d a = "final" ∨ classifyFields d a = "other" := by
  unfold classifyFields
  split
  · exact Or.inr (Or.inl rfl)
  · split
    · exact Or.inl rfl
    · exact Or.inr (Or.inr rfl)

theorem hasAnyLiveGames_eq_false (t : Table) : hasAnyLiveGames t = false := by
  induction t with
  | nil => rfl
  | cons p tl ih =>
    obtain ⟨k, row⟩ := p
    unfold hasAnyLiveGames
    split
    · rfl
    · exact ih

theorem shrinkFor_status (j : Json) : shrinkFor "status_cache" j = shrinkStatus j := rfl

theorem shrinkFor_line (j : Json) : shrinkFor "linescore_cache" j = Except.ok j := rfl

theorem tableOf_status (st : Store) : tableOf st "status_cache" = st.status := rfl

theorem tableOf_line (st : Store) : tableOf st "linescore_cache" = st.line := rfl

theorem setTableOf_status (st : Store) (t : Table) :
    setTableOf st "status_cache" t = { st with status := t } := rfl

theorem setTableOf_line (st : Store) (t : Table) :
    setTableOf st "linescore_cache" t = { st with line := t } := rfl

theorem getCachedStatusState_none (st : Store) (pk : Int) (h : tget st.status pk = none) :
    getCachedStatusState st pk = .ok "other" := by
  unfold getCachedStatusState
  rw [h]

theorem getCachedStatusState_unparseable (st : Store) (pk : Int) (row : CacheRow)
    (h : tget st.status pk = some row) (hp : row.payload = none) :
    getCachedStatusState st pk = .ok "other" := by
  unfold getCachedStatusState
  rw [h]
  simp [hp]

theorem truthyOr_str (s : String) :
    (if (Json.str s).truthy then Json.str s else Json.str "") = Json.str s := by
  by_cases h : s = ""
  · subst h; simp [Json.truthy]
  · simp [Json.truthy, h]

theorem getStateField_str (kvs : List (String × Json)) (key : String) (s : String)
    (h : lookupKV kvs key = some (Json.str s)) :
    getStateField (Json.obj kvs) key = .ok (lowerStr s) := by
  show pyLower (if ((lookupKV kvs key).getD Json.null).truthy
    then (lookupKV kvs key).getD Json.null else Json.str "") = _
  rw [h]
  show pyLower (if (Json.str s).truthy then Json.str s else Json.str "") = _
  rw [truthyOr_str]
  rfl

theorem upsertLine_ok (st : Store) (pk : Int) (p : Json) (now : Nat) :
    ∃ st1 w, upsertSimpleCache st "linescore_cache" pk p now = .ok (st1, w) ∧
      st1.status = st.status ∧ st1.box = st.box := by
  unfold upsertSimpleCache
  rw [shrinkFor_line, tableOf_line]
  simp only [setTableOf_line]
  split
  · split
    · exact ⟨st, false, rfl, rfl, rfl⟩
    · exact ⟨_, true, rfl, rfl, rfl⟩
  · exact ⟨_, true, rfl, rfl, rfl⟩

theorem upsertStatus_split (st : Store) (pk : Int) (j : Json) (now : Nat) :
    (∃ e, shrinkStatus j = .error e ∧ upsertSimpleCache st "status_cache" pk j now = .error e) ∨
    (∃ shrunk st1 w, shrinkStatus j = .ok shrunk ∧
      upsertSimpleCache st "status_cache" pk j now = .ok (st1, w) ∧
      st1.box = st.box ∧ st1.line = st.line ∧
      ∀ q, ¬(q = pk) → tget st1.status q = tget st.status q) := by
  unfold upsertSimpleCache
  rw [shrinkFor_status, tableOf_status]
  simp only [setTableOf_status]
  split
  next e heq => exact Or.inl ⟨e, heq, rfl⟩
  next shrunk heq =>
    refine Or.inr ⟨shrunk, ?_⟩
    split
    · split
      · exact ⟨st, false, heq, rfl, rfl, rfl, fun q hq => rfl⟩
      · exact ⟨_, true, heq, rfl, rfl, rfl, fun q hq => tget_tset_ne st.status pk q _ hq⟩
    · exact ⟨_, true, heq, rfl, rfl, rfl, fun q hq => tget_tset_ne st.status pk q _ hq⟩

theorem refresh_snd (st : Store) (pk : Int) (net : Except PyErr Json) (now : Nat) :
    (refreshAndGetStatusState st pk net now).2 = statusStateOfNet net := by
  cases net with
  | error e => rfl
  | ok j =>
    simp only [refreshAndGetStatusState, statusStateOfNet]
    rcases upsertStatus_split st pk j now with ⟨e, hs, hu⟩ | ⟨shrunk, st1, w, hs, hu, _, _, _⟩
    · rw [hs, hu]
    · rw [hs, hu]
      cases hef : extractFields j <;> rfl

theorem refresh_store (st : Store) (pk : Int) (net : Except PyErr Json) (now : Nat) :
    (refreshAndGetStatusState st pk net now).1.box = st.box ∧
    (refreshAndGetStatusState st pk net now).1.line = st.line ∧
    (∀ q, ¬(q = pk) →
      tget (refreshAndGetStatusState st pk net now).1.status q = tget st.status q) := by
  cases net with
  | error e => exact ⟨rfl, rfl, fun q _ => rfl⟩
  | ok j =>
    simp only [refreshAndGetStatusState]
    rcases upsertStatus_split st pk j now with ⟨e, hs, hu⟩ | ⟨shrunk, st1, w, hs, hu, hb, hl, hst⟩
    · rw [hu]
      exact ⟨rfl, rfl, fun q _ => rfl⟩
    · rw [hu]
      cases hef : extractFields j with
      | error e => exact ⟨hb, hl, fun q hq => hst q hq⟩
      | ok pair => exact ⟨hb, hl, fun q hq => hst q hq⟩

theorem setBox_ok (st : Store) (pk : Int) (p : Json) (now : Nat) (shrunk : Json)
    (hs : shrinkBoxscore p = .ok shrunk) :
    ∃ st1 w, setCachedBoxscore st pk p now = .ok (st1, w) ∧
      st1.status = st.status ∧ st1.line = st.line := by
  unfold setCachedBoxscore
  split
  next e heq => rw [hs] at heq; cases heq
  next s heq =>
    rw [hs] at heq
    cases heq
    split
    · split
      · exact ⟨st, false, rfl, rfl, rfl⟩
      · exact ⟨_, true, rfl, rfl, rfl⟩
    · exact ⟨_, true, rfl, rfl, rfl⟩

theorem purge_single (st : Store) (pk : Int) :
    purgeFinalCaches st [pk] =
      { box := tdel st.box pk, line := tdel st.line pk, status := tdel st.status pk } := rfl

theorem activeFold_skip (env : Env) (now : Nat) :
    ∀ (l : List (Int × CacheRow)) (acc : ARes),
      (∀ p, p ∈ l → ∃ j, p.2.payload = some j ∧ storedFinal j = true) →
      l.foldl (activeStep env now) acc = acc := by
  intro l
  induction l with
  | nil => intro acc _; rfl
  | cons p t ih =>
    intro acc h
    obtain ⟨j, hj, hf⟩ := h p (List.mem_cons_self p t)
    have hstep : activeStep env now acc p = acc := by
      simp only [activeStep, hj, hf, if_true]
    rw [List.foldl_cons, hstep]
    exact ih acc (fun q hq => h q (List.mem_cons_of_mem p hq))

/-- C7 (amended): in the Active-Event Sweep, a cached Status entry whose
STORED payload already classifies as FINAL is skipped with no network call
and no ledger write, but it is NOT purged: a store all of whose Status rows
are stored-final is returned completely unchanged. -/
theorem C7_theorem (env : Env) (st : Store) (now : Nat)
    (h : ∀ p, p ∈ st.status → ∃ j, p.2.payload = some j ∧ storedFinal j = true) :
    updateActiveGames env st now = { store := st, ledger := [], updated := 0, net := [] } := by
  show (if st.status.isEmpty = true then { store := st, ledger := [], updated := 0, net := [] }
    else List.foldl (activeStep env now)
      { store := st, ledger := [], updated := 0, net := [] } st.status) = _
  split
  · rfl
  · exact activeFold_skip env now st.status _ h

/-- C7 counterexample: game 1 has a stored-final Status row and a boxscore
cache row; the sweep makes no network call for it (that part of the claim
holds) but the boxscore row survives the sweep — the claimed purge does not
happen. -/
theorem C7_counterexample :
    (updateActiveGames failEnv c7Store 0).net = [] ∧
    tget (updateActiveGames failEnv c7Store 0).store.box 1 = some emptyObjRow :=
  ⟨rfl, rfl⟩

/-- C7 witness: the amended theorem at a store holding one stored-final
Status row. -/
theorem C7_witness :
    updateActiveGames failEnv c10Store 0 =
      { store := c10Store, ledger := [], updated := 0, net := [] } := by
  refine C7_theorem failEnv c10Store 0 ?_
  intro p hp
  have hp' : p = (1, { payload := some finalStatusDoc, hash := none, updatedAt := 0 }) := by
    simpa [c10Store] using hp
  subst hp'
  exact ⟨finalStatusDoc, rfl, rfl⟩

theorem extractFields_statusDoc (det ab : String) :
    extractFields (statusDoc det ab) = .ok (lowerStr det, lowerStr ab) := by
  have h1 : extractFields (statusDoc det ab) = (do
      let d ← getStateField (Json.obj [("detailedState", Json.str det),
        ("abstractGameState", Json.str ab)]) "detailedState"
      let a ← getStateField (Json.obj [("detailedState", Json.str det),
        ("abstractGameState", Json.str ab)]) "abstractGameState"
      pure (d, a)) := rfl
  have h2 := getStateField_str [("detailedState", Json.str det),
    ("abstractGameState", Json.str ab)] "detailedState" det rfl
  have h3 := getStateField_str [("detailedState", Json.str det),
    ("abstractGameState", Json.str ab)] "abstractGameState" ab rfl
  rw [h1, h2, h3]
  rfl

/-- C3 (amended): _refresh_and_get_status_state always yields one of
live/final/other (it never raises); _get_cached_status_state yields one of the
three whenever it returns, and an absent row or an unparseable payload yields
"other" — but it is not exception-free on all parseable documents (see the
counterexample). -/
theorem C3_theorem (st : Store) (pk : Int) (net : Except PyErr Json) (now : Nat) :
    ((refreshAndGetStatusState st pk net now).2 = "live" ∨
     (refreshAndGetStatusState st pk net now).2 = "final" ∨
     (refreshAndGetStatusState st pk net now).2 = "other")
  ∧ (∀ r, getCachedStatusState st pk = .ok r → r = "live" ∨ r = "final" ∨ r = "other")
  ∧ (tget st.status pk = none → getCachedStatusState st pk = .ok "other")
  ∧ (∀ row, tget st.status pk = some row → row.payload = none →
      getCachedStatusState st pk = .ok "other") := by
  refine ⟨?_, ?_, ?_, ?_⟩
  · rw [refresh_snd]
    cases net with
    | error e => exact Or.inr (Or.inr rfl)
    | ok j =>
      simp only [statusStateOfNet]
      cases hs : shrinkStatus j with
      | error e => exact Or.inr (Or.inr rfl)
      | ok shrunk =>
        cases hef : extractFields j with
        | error e => exact Or.inr (Or.inr rfl)
        | ok pair => exact classifyFields_mem pair.1 pair.2
  · intro r h
    unfold getCachedStatusState at h
    split at h
    · cases h; exact Or.inr (Or.inr rfl)
    · split at h
      · cases h; exact Or.inr (Or.inr rfl)
      · split at h
        · cases h
        · cases h; exact classifyFields_mem _ _
  · intro h
    exact getCachedStatusState_none st pk h
  · intro row h hp
    exact getCachedStatusState_unparseable st pk row h hp

/-- C3 counterexample: a Status row whose stored text is valid JSON but whose
gameData value is null makes _get_cached_status_state raise an AttributeError
(the chained .get is outside the try/except that only guards json.loads),
contradicting "never raises". -/
theorem C3_counterexample :
    getCachedStatusState c3BadStore 1 = Except.error (PyErr.attrError "get") := rfl

/-- C3 witness: the amended theorem applied to a live row and to an absent
row. -/
theorem C3_witness :
    ("live" = "live" ∨ "live" = "final" ∨ "live" = "other") ∧
    getCachedStatusState emptyStore 1 = Except.ok "other" := by
  constructor
  · exact (C3_theorem c3LiveStore 1 (Except.error (PyErr.httpError "net")) 0).2.1 "live" rfl
  · exact (C3_theorem emptyStore 1 (Except.error (PyErr.httpError "net")) 0).2.2.1 rfl

/-- C4 (amended): for every status document with string detailed/abstract
fields, the cached-state classification equals the code's rule on the
lowercased fields: FINAL iff detailed contains "final" or abstract EQUALS
"final" or "completed" or detailed contains "game over" (abstract is compared
by equality, not substring); else LIVE iff abstract equals "live" or detailed
contains "in progress"/"progress"/"live"; else OTHER. -/
theorem C4_theorem (det ab : String) :
    getCachedStatusState (storeWithStatusDoc det ab) 1 = Except.ok
      (if pyIn "final" (lowerStr det) || lowerStr ab == "final" || lowerStr ab == "completed"
          || pyIn "game over" (lowerStr det) then "final"
       else if lowerStr ab == "live" || pyIn "in progress" (lowerStr det)
          || pyIn "progress" (lowerStr det) || pyIn "live" (lowerStr det) then "live"
       else "other") := by
  show (match extractFields (statusDoc det ab) with
    | .error e => Except.error e
    | .ok (d, a) => Except.ok (classifyFields d a)) = _
  rw [extractFields_statusDoc]
  rfl

/-- C4 counterexample: abstract = "SemiFinal" contains "final"
case-insensitively, so the claim classifies the document FINAL, but the code
compares the abstract field by equality and yields OTHER. -/
theorem C4_counterexample :
    pyIn "final" (lowerStr "SemiFinal") = true ∧
    getCachedStatusState (storeWithStatusDoc "" "SemiFinal") 1 = Except.ok "other" :=
  ⟨rfl, rfl⟩

/-- C8 (amended): the scheduler's chosen sleep interval is ALWAYS the long
interval (300s): _has_any_live_games deliberately returns False even when a
live Status row is found, so the short interval branch is unreachable. -/
theorem C8_theorem (env : CycleEnv) (s : SchedState) : (runCycle env s).2.2 = 300 := by
  simp [runCycle, hasAnyLiveGames_eq_false]

/-- C8 counterexample: a cycle whose Status cache holds a row that classifies
LIVE still sleeps 300s, not the claimed 60s. -/
theorem C8_counterexample :
    getCachedStatusState { box := [], line := [], status := c8Table } 1 = Except.ok "live" ∧
    (runCycle c8Env idleSched).2.2 = 300 :=
  ⟨rfl, rfl⟩

/-- C2 (amended): every scheduler cycle reaches the sleep step with an
interval of 60 or 300 whatever the step outcomes; an exception in the active
sweep or the date sweep is caught and recorded in the last-error state; a
cycle whose sweeps succeed ends with last-error cleared even if eviction
fails — an eviction exception is caught and logged but NOT recorded in the
last-error state. -/
theorem C2_theorem (env : CycleEnv) (s : SchedState) :
    ((runCycle env s).2.2 = 60 ∨ (runCycle env s).2.2 = 300)
  ∧ (∀ e, env.activeRes = .error e → (runCycle env s).1.lastError = some e)
  ∧ (∀ e, env.activeRes = .ok 0 → env.dateRes = .error e →
      (runCycle env s).1.lastError = some e)
  ∧ (∀ n, env.activeRes = .ok n → 0 < n → (runCycle env s).1.lastError = none)
  ∧ (∀ e, env.cleanupRes = .error e →
      "cache cleanup failed" ∈ (runCycle env s).2.1) := by
  refine ⟨?_, ?_, ?_, ?_, ?_⟩
  · simp only [runCycle]
    split
    · exact Or.inl rfl
    · exact Or.inr rfl
  · intro e h
    simp [runCycle, cycleStep1, h]
  · intro e h1 h2
    simp [runCycle, cycleStep1, h1, h2]
  · intro n h hn
    simp [runCycle, cycleStep1, h, hn]
  · intro e h
    simp [runCycle, h, List.mem_append]

/-- C2 counterexample: a cycle whose sweeps succeed but whose cache eviction
raises still reaches the sleep step and logs the failure, but the last-error
state stays none — the eviction error is not recorded, contradicting the
claim. -/
theorem C2_counterexample :
    c2Env.cleanupRes = Except.error "boom" ∧
    (runCycle c2Env idleSched).1.lastError = none ∧
    "cache cleanup failed" ∈ (runCycle c2Env idleSched).2.1 := by
  refine ⟨rfl, rfl, ?_⟩
  show "cache cleanup failed" ∈ (["active update pass", "cache cleanup failed",
    "sleep interval"] : List String)
  decide

/-- C2 witness: the amended theorem at a cycle whose active sweep raises and
whose eviction raises. -/
theorem C2_witness :
    (runCycle c2wEnv idleSched).1.lastError = some "sweep failed" ∧
    "cache cleanup failed" ∈ (runCycle c2wEnv idleSched).2.1 :=
  ⟨(C2_theorem c2wEnv idleSched).2.1 "sweep failed" rfl,
   (C2_theorem c2wEnv idleSched).2.2.2.2 "boom" rfl⟩

/-- C10 (amended, first half of the claim): for a game with no cached
boxscore row whose cached status classifies final, fetch_boxscore returns the
empty document with no network call and no cache write. -/
theorem C10_theorem (st : Store) (pk : Int) (net : Except PyErr Json) (now : Nat)
    (h1 : tget st.box pk = none) (h2 : isFinalCached st pk = true) :
    fetchBoxscore st pk net now = .ok (st, Json.obj [], []) := by
  simp [fetchBoxscore, h1, h2]

/-- C10 witness: a final status row and empty boxscore cache; even a failing
upstream oracle is never consulted. -/
theorem C10_witness :
    fetchBoxscore c10Store 1 (Except.error (PyErr.httpError "net")) 0 =
      Except.ok (c10Store, Json.obj [], []) :=
  C10_theorem c10Store 1 (Except.error (PyErr.httpError "net")) 0 rfl rfl

/-- C10 counterexample (second half of the claim): once the caches are purged
the Status row is gone too, so a subsequent read REFETCHES from the network
(trace ["boxscore"]) and re-writes the cache instead of yielding the empty
document. -/
theorem C10_counterexample :
    isFinalCached emptyStore 1 = false ∧
    fetchBoxscore emptyStore 1 (Except.ok c10Doc) 0 =
      Except.ok (c10Res, c10Doc, ["boxscore"]) :=
  ⟨rfl, rfl⟩

theorem tableOf_setTableOf (st : Store) (table : String) (t : Table) :
    tableOf (setTableOf st table t) table = t := by
  unfold tableOf setTableOf
  by_cases hb : (table == "linescore_cache") = true <;> simp [hb]

theorem upsert_split (st : Store) (table : String) (pk : Int) (p : Json) (now : Nat) :
    (∃ e, shrinkFor table p = .error e ∧ upsertSimpleCache st table pk p now = .error e) ∨
    (∃ shrunk row, shrinkFor table p = .ok shrunk ∧
       tget (tableOf st table) pk = some row ∧ row.hash = some (calcHash shrunk) ∧
       upsertSimpleCache st table pk p now = .ok (st, false)) ∨
    (∃ shrunk, shrinkFor table p = .ok shrunk ∧
       (∀ row, tget (tableOf st table) pk = some row →
         ¬ row.hash = some (calcHash shrunk)) ∧
       upsertSimpleCache st table pk p now =
         .ok (setTableOf st table (tset (tableOf st table) pk (freshRow shrunk now)), true)) := by
  unfold upsertSimpleCache
  split
  next e heq => exact Or.inl ⟨e, heq, rfl⟩
  next shrunk heq =>
    split
    next row htg =>
      split
      next hbe =>
        exact Or.inr (Or.inl ⟨shrunk, row, heq, htg, eq_of_beq hbe, rfl⟩)
      next hbe =>
        refine Or.inr (Or.inr ⟨shrunk, heq, ?_, rfl⟩)
        intro row' htg' hh
        rw [htg'] at htg
        cases htg
        exact hbe (by rw [hh]; exact beq_self_eq_true _)
    next htg =>
      refine Or.inr (Or.inr ⟨shrunk, heq, ?_, rfl⟩)
      intro row' htg' _
      rw [htg'] at htg
      cases htg

theorem setBox_split (st : Store) (pk : Int) (p : Json) (now : Nat) :
    (∃ e, shrinkBoxscore p = .error e ∧ setCachedBoxscore st pk p now = .error e) ∨
    (∃ shrunk row, shrinkBoxscore p = .ok shrunk ∧
       tget st.box pk = some row ∧ row.hash = some (calcHash shrunk) ∧
       setCachedBoxscore st pk p now = .ok (st, false)) ∨
    (∃ shrunk, shrinkBoxscore p = .ok shrunk ∧
       (∀ row, tget st.box pk = some row → ¬ row.hash = some (calcHash shrunk)) ∧
       setCachedBoxscore st pk p now =
         .ok ({ st with box := tset st.box pk (freshRow shrunk now) }, true)) := by
  unfold setCachedBoxscore
  split
  next e heq => exact Or.inl ⟨e, heq, rfl⟩
  next shrunk heq =>
    split
    next row htg =>
      split
      next hbe =>
        exact Or.inr (Or.inl ⟨shrunk, row, heq, htg, eq_of_beq hbe, rfl⟩)
      next hbe =>
        refine Or.inr (Or.inr ⟨shrunk, heq, ?_, rfl⟩)
        intro row' htg' hh
        rw [htg'] at htg
        cases htg
        exact hbe (by rw [hh]; exact beq_self_eq_true _)
    next htg =>
      refine Or.inr (Or.inr ⟨shrunk, heq, ?_, rfl⟩)
      intro row' htg' _
      rw [htg'] at htg
      cases htg

theorem upsert_noop (st : Store) (table : String) (pk : Int) (p : Json) (now : Nat)
    (shrunk : Json) (hs : shrinkFor table p = .ok shrunk)
    (row : CacheRow) (htg : tget (tableOf st table) pk = some row)
    (hrh : row.hash = some (calcHash shrunk)) :
    upsertSimpleCache st table pk p now = .ok (st, false) := by
  rcases upsert_split st table pk p now with ⟨e, hs', _⟩ |
    ⟨shrunk', row', hs', _, _, hu'⟩ | ⟨shrunk', hs', hcond', _⟩
  · rw [hs'] at hs; cases hs
  · exact hu'
  · rw [hs'] at hs
    cases hs
    exact absurd hrh (hcond' row htg)

theorem setBox_noop (st : Store) (pk : Int) (p : Json) (now : Nat)
    (shrunk : Json) (hs : shrinkBoxscore p = .ok shrunk)
    (row : CacheRow) (htg : tget st.box pk = some row)
    (hrh : row.hash = some (calcHash shrunk)) :
    setCachedBoxscore st pk p now = .ok (st, false) := by
  rcases setBox_split st pk p now with ⟨e, hs', _⟩ |
    ⟨shrunk', row', hs', _, _, hu'⟩ | ⟨shrunk', hs', hcond', _⟩
  · rw [hs'] at hs; cases hs
  · exact hu'
  · rw [hs'] at hs
    cases hs
    exact absurd hrh (hcond' row htg)

/-- C5: upserting a byte-identical payload twice writes once; the second call
is a complete no-op reporting written=false, leaving the row (including its
updatedAt timestamp) untouched, for the linescore/status upsert and for the
boxscore cache write alike. -/
theorem C5_theorem (st : Store) (table : String) (pk : Int) (p : Json) (n1 n2 : Nat) :
    (∀ st1 w1, upsertSimpleCache st table pk p n1 = .ok (st1, w1) →
       upsertSimpleCache st1 table pk p n2 = .ok (st1, false) ∧
       (tget (tableOf st table) pk = none → w1 = true))
  ∧ (∀ st1 w1, setCachedBoxscore st pk p n1 = .ok (st1, w1) →
       setCachedBoxscore st1 pk p n2 = .ok (st1, false) ∧
       (tget st.box pk = none → w1 = true)) := by
  constructor
  · intro st1 w1 h
    rcases upsert_split st table pk p n1 with ⟨e, hs, hu⟩ |
      ⟨shrunk, row, hs, htg, hrh, hu⟩ | ⟨shrunk, hs, hcond, hu⟩
    · rw [hu] at h; cases h
    · rw [hu] at h
      injection h with h'
      injection h' with ha hb
      subst ha
      subst hb
      exact ⟨upsert_noop st table pk p n2 shrunk hs row htg hrh,
        fun hn => by rw [hn] at htg; cases htg⟩
    · rw [hu] at h
      injection h with h'
      injection h' with ha hb
      subst ha
      subst hb
      refine ⟨?_, fun _ => rfl⟩
      exact upsert_noop _ table pk p n2 shrunk hs (freshRow shrunk n1)
        (by rw [tableOf_setTableOf]; exact tget_tset_self _ _ _) rfl
  · intro st1 w1 h
    rcases setBox_split st pk p n1 with ⟨e, hs, hu⟩ |
      ⟨shrunk, row, hs, htg, hrh, hu⟩ | ⟨shrunk, hs, hcond, hu⟩
    · rw [hu] at h; cases h
    · rw [hu] at h
      injection h with h'
      injection h' with ha hb
      subst ha
      subst hb
      exact ⟨setBox_noop st pk p n2 shrunk hs row htg hrh,
        fun hn => by rw [hn] at htg; cases htg⟩
    · rw [hu] at h
      injection h with h'
      injection h' with ha hb
      subst ha
      subst hb
      refine ⟨?_, fun _ => rfl⟩
      exact setBox_noop _ pk p n2 shrunk hs (freshRow shrunk n1)
        (tget_tset_self _ _ _) rfl

/-- C5 witness: double upsert of the empty document into the empty store, for
the linescore table and the boxscore cache. -/
theorem C5_witness :
    upsertSimpleCache emptyStore "linescore_cache" 1 (Json.obj []) 0 =
      Except.ok (lineStore1, true) ∧
    upsertSimpleCache lineStore1 "linescore_cache" 1 (Json.obj []) 5 =
      Except.ok (lineStore1, false) ∧
    setCachedBoxscore emptyStore 1 (Json.obj []) 0 = Except.ok (boxStore1, true) ∧
    setCachedBoxscore boxStore1 1 (Json.obj []) 5 = Except.ok (boxStore1, false) := by
  refine ⟨rfl, ?_, rfl, ?_⟩
  · exact ((C5_theorem emptyStore "linescore_cache" 1 (Json.obj []) 0 5).1
      lineStore1 true rfl).1
  · exact ((C5_theorem emptyStore "linescore_cache" 1 (Json.obj []) 0 5).2
      boxStore1 true rfl).1

theorem tableHashOk_tset : ∀ (t : Table) (pk : Int) (r : CacheRow),
    tableHashOk t = true → rowHashOk r = true → tableHashOk (tset t pk r) = true := by
  intro t
  induction t with
  | nil => intro pk r _ hr; simp [tset, tableHashOk, hr]
  | cons p tl ih =>
    intro pk r ht hr
    obtain ⟨k, v⟩ := p
    simp only [tableHashOk, List.all_cons, Bool.and_eq_true] at ht
    by_cases hk : k = pk
    · subst hk
      simp [tset, tableHashOk, List.all_cons, hr, ht.2]
    · simp only [tset, beq_iff_eq, hk, if_false, tableHashOk, List.all_cons, Bool.and_eq_true]
      exact ⟨ht.1, ih pk r ht.2 hr⟩

theorem rowHashOk_freshRow (shrunk : Json) (now : Nat) :
    rowHashOk (freshRow shrunk now) = true := by
  simp [rowHashOk, freshRow]

theorem storeHashOk_write (st : Store) (table : String) (pk : Int) (shrunk : Json)
    (now : Nat) (h : storeHashOk st = true) :
    storeHashOk (setTableOf st table (tset (tableOf st table) pk (freshRow shrunk now)))
      = true := by
  simp only [storeHashOk, Bool.and_eq_true] at h
  cases hb : (table == "linescore_cache") with
  | true =>
    simp [setTableOf, tableOf, hb, storeHashOk, Bool.and_eq_true, h.1.1, h.2,
      tableHashOk_tset st.line pk _ h.1.2 (rowHashOk_freshRow shrunk now)]
  | false =>
    simp [setTableOf, tableOf, hb, storeHashOk, Bool.and_eq_true, h.1.1, h.1.2,
      tableHashOk_tset st.status pk _ h.2 (rowHashOk_freshRow shrunk now)]

/-- C6 (amended): the content-hash invariant — every row's hash column equals
the hash of the canonical serialization of its stored payload — is preserved
by the updater's two cache-write operations (_upsert_simple_cache for the
linescore/status tables and _set_cached_boxscore for the boxscore table).
It is NOT preserved by fetch_game_status (see the counterexample). -/
theorem C6_theorem (st : Store) (table : String) (pk : Int) (p : Json) (now : Nat)
    (h : storeHashOk st = true) :
    (∀ st1 w, upsertSimpleCache st table pk p now = .ok (st1, w) → storeHashOk st1 = true)
  ∧ (∀ st1 w, setCachedBoxscore st pk p now = .ok (st1, w) → storeHashOk st1 = true) := by
  constructor
  · intro st1 w h1
    rcases upsert_split st table pk p now with ⟨e, hs, hu⟩ |
      ⟨shrunk, row, hs, htg, hrh, hu⟩ | ⟨shrunk, hs, hcond, hu⟩
    · rw [hu] at h1; cases h1
    · rw [hu] at h1
      injection h1 with h'
      injection h' with ha hb
      subst ha
      exact h
    · rw [hu] at h1
      injection h1 with h'
      injection h' with ha hb
      subst ha
      exact storeHashOk_write st table pk shrunk now h
  · intro st1 w h1
    rcases setBox_split st pk p now with ⟨e, hs, hu⟩ |
      ⟨shrunk, row, hs, htg, hrh, hu⟩ | ⟨shrunk, hs, hcond, hu⟩
    · rw [hu] at h1; cases h1
    · rw [hu] at h1
      injection h1 with h'
      injection h' with ha hb
      subst ha
      exact h
    · rw [hu] at h1
      injection h1 with h'
      injection h' with ha hb
      subst ha
      simp only [storeHashOk, Bool.and_eq_true] at h ⊢
      exact ⟨⟨tableHashOk_tset st.box pk _ h.1.1 (rowHashOk_freshRow shrunk now), h.1.2⟩, h.2⟩

/-- C6 counterexample: fetch_game_status on a cache miss inserts the fetched
Status document WITHOUT a content hash (the hash column stays NULL), so the
resulting store violates the invariant. -/
theorem C6_counterexample :
    storeHashOk emptyStore = true ∧
    (fetchGameStatus emptyStore 1 (Except.ok (Json.obj [])) 0).toOption.map
      (fun r => storeHashOk r.1) = some false :=
  ⟨rfl, rfl⟩

/-- C6 witness: the invariant holds for the empty store and is carried to the
store produced by a first linescore upsert. -/
theorem C6_witness :
    storeHashOk emptyStore = true ∧ storeHashOk lineStore1 = true := by
  refine ⟨rfl, ?_⟩
  exact (C6_theorem emptyStore "linescore_cache" 1 (Json.obj []) 0 rfl).1 lineStore1 true rfl

/-- C9 (amended): the sync paths' linescore store operation
(_upsert_simple_cache with table "linescore_cache") persists the RAW payload
— no shrink is applied — and hashes the raw payload; _shrink_linescore is
applied only on the fetch_linescore read path. -/
theorem C9_theorem (st : Store) (pk : Int) (ls : Json) (now : Nat) (st1 : Store)
    (h : upsertSimpleCache st "linescore_cache" pk ls now = .ok (st1, true)) :
    tget st1.line pk = some (freshRow ls now) := by
  rcases upsert_split st "linescore_cache" pk ls now with ⟨e, hs, hu⟩ |
    ⟨shrunk, row, hs, htg, hrh, hu⟩ | ⟨shrunk, hs, hcond, hu⟩
  · rw [hu] at h; cases h
  · rw [hu] at h
    injection h with h'
    injection h' with ha hb
    cases hb
  · rw [shrinkFor_line] at hs
    cases hs
    rw [hu] at h
    injection h with h'
    injection h' with ha hb
    subst ha
    rw [setTableOf_line]
    exact tget_tset_self _ _ _

/-- C9 counterexample: running the date sync with an upstream linescore
document carrying the non-whitelisted field "foo" stores that raw document —
"foo" survives in the cache row, although _shrink_linescore would drop it. -/
theorem C9_counterexample :
    (updateForDate c9Env [mkGame 1] false emptyStore 0).toOption.map
      (fun r => (tget r.1.line 1).map (fun row => row.payload)) =
        some (some (some c9Raw)) ∧
    jsonHasKey c9Raw "foo" = true ∧
    shrinkLinescore c9Raw = Except.ok c9Shrunk ∧
    jsonHasKey c9Shrunk "foo" = false :=
  ⟨rfl, rfl, rfl, rfl⟩

/-- C9 witness: the amended theorem at a first write of the raw document into
the empty store. -/
theorem C9_witness :
    tget ({ box := [], line := [(1, freshRow c9Raw 0)], status := [] } : Store).line 1 =
      some (freshRow c9Raw 0) ∧ jsonHasKey c9Raw "foo" = true :=
  ⟨C9_theorem emptyStore 1 c9Raw 0
    { box := [], line := [(1, freshRow c9Raw 0)], status := [] } rfl, rfl⟩

theorem extractGamePk_mkGame (pk : Int) : extractGamePk (mkGame pk) = some pk := by
  show (match (if (Json.num pk).truthy then Json.num pk else Json.num 0) with
    | Json.num n => some n
    | Json.bool b => some (if b then 1 else 0)
    | Json.str s => s.toInt?
    | _ => none) = some pk
  by_cases h : pk = 0
  · subst h; rfl
  · have ht : (Json.num pk).truthy = true := by simp [Json.truthy, h]
    rw [if_pos ht]

theorem c1_finish (pk : Int) (stX : Store) (base : Table)
    (hch : ∀ q, ¬(q = pk) → tget stX.status q = tget base q) :
    ∀ q, ¬(q = pk) →
      tget (match getCachedStatusState stX pk with
        | .error _ => stX
        | .ok stateNow => if stateNow == "final"
            then purgeFinalCaches stX [pk] else stX).status q = tget base q := by
  intro q hq
  cases hpc : getCachedStatusState stX pk with
  | error e => exact hch q hq
  | ok s =>
    show tget (if s == "final" then purgeFinalCaches stX [pk] else stX).status q = tget base q
    by_cases hf : (s == "final") = true
    · rw [if_pos hf, purge_single]
      show tget (tdel stX.status pk) q = tget base q
      rw [tget_tdel_ne stX.status pk q hq]
      exact hch q hq
    · rw [if_neg hf]
      exact hch q hq

theorem c1_step (env : Env) (now : Nat) (pk : Int) (acc : URes)
    (hcache : tget acc.store.status pk = none)
    (hbox : env.boxNet pk = .ok (Json.obj []))
    (hstat : ¬ statusStateOfNet (env.statusNet pk) = "final") :
    ∃ acc1, updateGameStep env false now acc (mkGame pk) = .ok acc1 ∧
      acc1.updated = acc.updated + 1 ∧
      acc1.ledger.map LEntry.pk = acc.ledger.map LEntry.pk ++ [pk] ∧
      (∀ q, ¬(q = pk) → tget acc1.store.status q = tget acc.store.status q) := by
  have hb0 : ("other" == "final") = false := rfl
  have hb1 : (statusStateOfNet (env.statusNet pk) == "final") = false :=
    beq_eq_false_iff_ne.mpr hstat
  obtain ⟨hrbox, hrline, hrstat⟩ :=
    refresh_store acc.store pk (env.statusNet pk) now
  obtain ⟨st2, w2, hset, hs2status, hs2line⟩ :=
    setBox_ok (refreshAndGetStatusState acc.store pk (env.statusNet pk) now).1
      pk (Json.obj []) now (Json.obj []) rfl
  obtain ⟨t0, hpt⟩ : ∃ t, parseBoxscoreTotals (Json.obj []) = Except.ok t := ⟨_, rfl⟩
  obtain ⟨hn0, hth⟩ : ∃ v, teamDisplayName (Json.obj []) "home" "Home" = Except.ok v :=
    ⟨_, rfl⟩
  obtain ⟨an0, hta⟩ : ∃ v, teamDisplayName (Json.obj []) "away" "Away" = Except.ok v :=
    ⟨_, rfl⟩
  obtain ⟨rs0, hib⟩ : ∃ v, iterBatters (Json.obj []) = Except.ok v := ⟨_, rfl⟩
  have hchain2 : ∀ q, ¬(q = pk) → tget st2.status q = tget acc.store.status q := by
    intro q hq
    rw [hs2status]
    exact hrstat q hq
  simp only [updateGameStep, extractGamePk_mkGame,
    getCachedStatusState_none acc.store pk hcache, Bool.not_false, Bool.true_and, hb0,
    Bool.false_eq_true, if_false, refresh_snd, hb1, refreshBoxscore, hbox, hset,
    hpt, hth, hta, hib]
  cases hl : env.lineNet pk with
  | error el =>
    simp only [hl]
    refine ⟨_, rfl, rfl, by simp, ?_⟩
    exact c1_finish pk st2 acc.store.status hchain2
  | ok ls =>
    obtain ⟨st3, w3, hup, hupstat, hupbox⟩ := upsertLine_ok st2 pk ls now
    simp only [hl, hup]
    refine ⟨_, rfl, rfl, by simp, ?_⟩
    refine c1_finish pk st3 acc.store.status ?_
    intro q hq
    rw [hupstat]
    exact hchain2 q hq

theorem c1_fold (env : Env) (now : Nat) :
    ∀ (pks : List Int) (acc : URes),
      pks.Nodup →
      (∀ pk, pk ∈ pks → tget acc.store.status pk = none) →
      (∀ pk, pk ∈ pks → env.boxNet pk = .ok (Json.obj [])) →
      (∀ pk, pk ∈ pks → ¬ statusStateOfNet (env.statusNet pk) = "final") →
      ∃ r, List.foldlM (updateGameStep env false now) acc (pks.map mkGame) = .ok r ∧
        r.updated = acc.updated + pks.length ∧
        r.ledger.map LEntry.pk = acc.ledger.map LEntry.pk ++ pks := by
  intro pks
  induction pks with
  | nil =>
    intro acc _ _ _ _
    exact ⟨acc, rfl, by simp, by simp⟩
  | cons pk t ih =>
    intro acc hnd hnone hbox hstat
    obtain ⟨acc1, hstep, hupd, hled, hpres⟩ :=
      c1_step env now pk acc (hnone pk (List.mem_cons_self pk t))
        (hbox pk (List.mem_cons_self pk t)) (hstat pk (List.mem_cons_self pk t))
    have hpk_not_t : pk ∉ t := (List.nodup_cons.mp hnd).1
    obtain ⟨r, hfold, hru, hrl⟩ := ih acc1 (List.nodup_cons.mp hnd).2
      (fun q hq => by
        rw [hpres q (fun he => hpk_not_t (he ▸ hq))]
        exact hnone q (List.mem_cons_of_mem pk hq))
      (fun q hq => hbox q (List.mem_cons_of_mem pk hq))
      (fun q hq => hstat q (List.mem_cons_of_mem pk hq))
    refine ⟨r, ?_, ?_, ?_⟩
    · rw [List.map_cons, List.foldlM_cons, hstep]
      exact hfold
    · rw [hru, hupd, List.length_cons]
      omega
    · rw [hrl, hled]
      simp

/-- C1 (amended): exceptions of the upstream client during the status fetch
or the linescore fetch are contained per event: for every duplicate-free
schedule, starting from an empty cache, if the boxscore endpoint succeeds for
every event and no status result classifies final, then update_for_date
returns normally with every event processed (count = N, one ledger upsert per
event, in order) — REGARDLESS of status-fetch and linescore-fetch failures.
An exception of the boxscore fetch is NOT contained (see the counterexample). -/
theorem C1_theorem (env : Env) (pks : List Int) (now : Nat)
    (h1 : pks.Nodup)
    (h2 : ∀ pk, pk ∈ pks → env.boxNet pk = Except.ok (Json.obj []))
    (h3 : ∀ pk, pk ∈ pks → ¬ statusStateOfNet (env.statusNet pk) = "final") :
    ∃ r, updateForDate env (pks.map mkGame) false emptyStore now = Except.ok r ∧
      r.2.2 = pks.length ∧ r.2.1.map LEntry.pk = pks := by
  obtain ⟨r, hfold, hru, hrl⟩ := c1_fold env now pks
    { store := emptyStore, ledger := [], updated := 0 } h1
    (fun pk _ => rfl) h2 h3
  unfold updateForDate
  by_cases he : (pks.map mkGame).isEmpty = true
  · have : pks = [] := by
      cases pks with
      | nil => rfl
      | cons a b => simp [List.isEmpty] at he
    subst this
    exact ⟨(emptyStore, [], 0), by rw [if_pos he], rfl, rfl⟩
  · rw [if_neg he, hfold]
    refine ⟨(r.store, r.ledger, r.updated), rfl, ?_, ?_⟩
    · simpa using hru
    · simpa using hrl

/-- C1 counterexample: a 2-event schedule where the upstream boxscore call
raises for event 1: update_for_date propagates the exception instead of
returning normally, and event 2 is never processed. -/
theorem C1_counterexample :
    updateForDate c1Env [mkGame 1, mkGame 2] false emptyStore 0 =
      Except.error (PyErr.httpError "boxscore") := rfl

/-- C1 witness: a 2-event schedule where the status fetch raises for event 1
and the linescore fetch raises for event 2; both events are still processed
and the function returns the count 2. -/
theorem C1_witness :
    ∃ r, updateForDate c1wEnv ([1, 2].map mkGame) false emptyStore 0 = Except.ok r ∧
      r.2.2 = ([1, 2] : List Int).length ∧ r.2.1.map LEntry.pk = [1, 2] := by
  refine C1_theorem c1wEnv [1, 2] 0 (by decide) ?_ ?_
  · intro pk hpk
    rfl
  · intro pk hpk
    have hpk' : pk = 1 ∨ pk = 2 := by simpa using hpk
    rcases hpk' with rfl | rfl
    · exact fun hc => absurd hc (by decide)
    · exact fun hc => absurd hc (by decide)
